import Mathlib

/-!
Verification of the SLIP frame codec and hex formatter of
`tools/serial/serialdump.c`.

The embedding models the per-byte receive loop of `main` (the
`MODE_SLIP_AUTO` / `MODE_SLIP` / `MODE_SLIP_HIDE` cases), the `MODE_HEX`
line accumulation, the transmit-side framing, and `print_hex_line`.
The C state variables map as follows:
  * `rxbuf[0..index)` is `SlipState.buf` (so `index = buf.length`);
  * `flags` is `SlipState.flags` (0, 1 after an opening delimiter, 2 after
    an overflow);
  * `lastc` is `SlipState.lastc` (0 or `SLIP_ESC`).
Rendering side effects become explicit output events (`SlipOut`).
-/

namespace Serialdump

/-- SLIP frame delimiter byte, `SLIP_END = 0300` in the source. -/
def SLIP_END : Nat := 0xC0

/-- SLIP escape byte, `SLIP_ESC = 0333` in the source. -/
def SLIP_ESC : Nat := 0xDB

/-- Escaped form of the delimiter, `SLIP_ESC_END = 0334`. -/
def SLIP_ESC_END : Nat := 0xDC

/-- Escaped form of the escape byte, `SLIP_ESC_ESC = 0335`. -/
def SLIP_ESC_ESC : Nat := 0xDD

/-- Capacity of the receive frame buffer: `static unsigned char rxbuf[2048]`. -/
def RXBUF_SIZE : Nat := 2048

/-- Width of a hex-dump line, `HCOLS = 20` in the source. -/
def HCOLS : Nat := 20

/-- The three SLIP display modes: `MODE_SLIP_AUTO`, `MODE_SLIP`
(slip-only) and `MODE_SLIP_HIDE`. -/
inductive SlipMode where
  | auto
  | only
  | hide
deriving DecidableEq, Repr

/-- Decode state of the SLIP codec: the accumulated frame bytes
(`rxbuf[0..index)`), the `flags` variable and the `lastc` variable. -/
structure SlipState where
  buf : List Nat
  flags : Nat
  lastc : Nat
deriving DecidableEq, Repr

/-- The state at program start: `index = 0`, `flags = 0`, `lastc = '\0'`. -/
def freshState : SlipState := ⟨[], 0, 0⟩

/-- Observable outcome of consuming one byte: a byte printed directly
(plain-text pass-through), a completed frame that is rendered, a completed
frame whose rendering is suppressed (`MODE_SLIP_HIDE`), an overflowed frame
silently discarded at its closing delimiter, or the `**** slip overflow`
report at the moment the buffer fills. -/
inductive SlipOut where
  | passThrough (b : Nat)
  | frameShown (bs : List Nat)
  | frameHidden (bs : List Nat)
  | frameDiscarded
  | overflow
deriving DecidableEq, Repr

/-- The guard `if(!flags && (buf[i] != SLIP_END))` that routes a byte to
plain-text pass-through in `MODE_SLIP_AUTO` and `MODE_SLIP_HIDE`. -/
def passThru (m : SlipMode) (s : SlipState) (b : Nat) : Prop :=
  (m = SlipMode.auto ∨ m = SlipMode.hide) ∧ s.flags = 0 ∧ b ≠ SLIP_END

instance (m : SlipMode) (s : SlipState) (b : Nat) : Decidable (passThru m s b) := by
  unfold passThru
  infer_instance

/-- The escape substitution applied in the `default:` case when the
previous byte was `SLIP_ESC`: `SLIP_ESC_END` becomes the delimiter,
`SLIP_ESC_ESC` becomes the escape byte, anything else is unchanged. -/
def escMap (lastc b : Nat) : Nat :=
  if lastc = SLIP_ESC then
    if b = SLIP_ESC_END then SLIP_END
    else if b = SLIP_ESC_ESC then SLIP_ESC
    else b
  else b

/-- The event produced when a delimiter closes a non-empty frame: the
source renders the packet iff `flags != 2 && mode != MODE_SLIP_HIDE`;
with `flags = 2` the overflowed frame is discarded, otherwise in hide
mode the completed frame is suppressed. -/
def closingEvent (m : SlipMode) (s : SlipState) : SlipOut :=
  if s.flags ≠ 2 ∧ m ≠ SlipMode.hide then SlipOut.frameShown s.buf
  else if s.flags = 2 then SlipOut.frameDiscarded
  else SlipOut.frameHidden s.buf

/-- One iteration of the receive loop for one byte in a SLIP mode,
mirroring the `switch(buf[i])` of the `MODE_SLIP` case (with the
pass-through guard of `MODE_SLIP_AUTO`/`MODE_SLIP_HIDE` in front):
  * `SLIP_ESC` sets `lastc`;
  * `SLIP_END` with a non-empty buffer closes the frame and resets
    `lastc`, `index`, `flags`; with an empty buffer it executes
    `flags = !flags`;
  * any other byte is escape-mapped, appended, and on `index`
    reaching `sizeof(rxbuf)` the index is reset and `flags = 2`. -/
def slipStep (m : SlipMode) (s : SlipState) (b : Nat) : SlipState × List SlipOut :=
  if passThru m s b then (s, [SlipOut.passThrough b])
  else if b = SLIP_ESC then ({ s with lastc := SLIP_ESC }, [])
  else if b = SLIP_END then
    if s.buf ≠ [] then (freshState, [closingEvent m s])
    else ({ s with flags := if s.flags = 0 then 1 else 0 }, [])
  else
    let mapped := escMap s.lastc b
    let lc := if s.lastc = SLIP_ESC then 0 else s.lastc
    let newbuf := s.buf ++ [mapped]
    if RXBUF_SIZE ≤ newbuf.length then (⟨[], 2, lc⟩, [SlipOut.overflow])
    else (⟨newbuf, s.flags, lc⟩, [])

/-- Consuming a whole byte sequence, threading the decode state and
concatenating the emitted events. -/
def slipRun (m : SlipMode) (s : SlipState) : List Nat → SlipState × List SlipOut
  | [] => (s, [])
  | b :: rest =>
    let st := slipStep m s b
    let r := slipRun m st.1 rest
    (r.1, st.2 ++ r.2)

/-- The contents of the completed frames among a list of events
(rendered or hidden; discarded frames have no content). -/
def frameEvents : List SlipOut → List (List Nat)
  | [] => []
  | SlipOut.frameShown bs :: r => bs :: frameEvents r
  | SlipOut.frameHidden bs :: r => bs :: frameEvents r
  | _ :: r => frameEvents r

/-- The transmit-side framing of `main` for `MODE_SLIP`: one `slipend`
byte is written before and one after the outbound bytes; the payload
bytes themselves are written unmodified (no escaping). -/
def encode (B : List Nat) : List Nat := SLIP_END :: (B ++ [SLIP_END])

/-- One uppercase hexadecimal digit, as produced by `printf("%02X", ...)`. -/
def hexDigit (n : Nat) : Char :=
  if n < 10 then Char.ofNat (48 + n) else Char.ofNat (55 + n)

/-- The two characters `printf("%02X", b)` emits for a byte. -/
def hexByte (b : Nat) : List Char := [hexDigit (b / 16), hexDigit (b % 16)]

/-- The character the ASCII column of `print_hex_line` shows for a byte:
a literal character in the range `[30, 126]`, a dot otherwise. -/
def printableChar (b : Nat) : Char :=
  if b < 30 ∨ 126 < b then '.' else Char.ofNat b

/-- The first loop of `print_hex_line`: hex pairs for positions
`i, i+1, ...`, with a space inserted before every position divisible
by 4 (`if((i % 4) == 0) printf(" ")`). -/
def hexCellsFrom (i : Nat) : List Nat → List Char
  | [] => []
  | b :: rest => (if i % 4 = 0 then [' '] else []) ++ hexByte b ++ hexCellsFrom (i + 1) rest

/-- The padding loop of `print_hex_line`: for `n` remaining positions
starting at `i`, two blanks per position plus the group space before
every position divisible by 4. -/
def padCells : Nat → Nat → List Char
  | _, 0 => []
  | i, n + 1 => (if i % 4 = 0 then [' '] else []) ++ [' ', ' '] ++ padCells (i + 1) n

/-- The characters emitted by `print_hex_line(prefix, outbuf, index)`,
with `outbuf` holding the `index` bytes: carriage return, prefix, hex
pairs, two separating blanks, padding up to `HCOLS` positions, then the
ASCII rendering. -/
def print_hex_line (pfx : List Char) (outbuf : List Nat) : List Char :=
  '\r' :: pfx ++ hexCellsFrom 0 outbuf ++ [' ', ' ']
    ++ padCells outbuf.length (HCOLS - outbuf.length) ++ outbuf.map printableChar

/-- Character count contributed by the hex-pair loop for `n` bytes
starting at position `i` (independent of the byte values). -/
def hexCellsLen : Nat → Nat → Nat
  | _, 0 => 0
  | i, n + 1 => (if i % 4 = 0 then 1 else 0) + 2 + hexCellsLen (i + 1) n

/-- One iteration of the `MODE_HEX` receive loop: the byte is stored
(`rxbuf[index++] = buf[i]`) and once `index` reaches `HCOLS` the line is
rendered, a newline emitted, and the index reset. -/
def hexStep (line : List Nat) (b : Nat) : List Nat × List Char :=
  let l := line ++ [b]
  if HCOLS ≤ l.length then ([], print_hex_line [] l ++ ['\n']) else (l, [])

/-- Consuming a byte sequence in `MODE_HEX`, threading the line buffer. -/
def hexRun (line : List Nat) : List Nat → List Nat × List Char
  | [] => (line, [])
  | b :: rest =>
    let st := hexStep line b
    let r := hexRun st.1 rest
    (r.1, st.2 ++ r.2)

/-- The end-of-chunk flush of `main` for `MODE_HEX` (`if(index > 0)`
after the processing loop): a partial line is rendered padded. -/
def hexFlush (line : List Nat) : List Char :=
  if line.length > 0 then print_hex_line [] line else []

/-! ### Helper lemmas -/

theorem slipRun_append (m : SlipMode) (s : SlipState) (xs ys : List Nat) :
    slipRun m s (xs ++ ys) =
      ((slipRun m (slipRun m s xs).1 ys).1,
        (slipRun m s xs).2 ++ (slipRun m (slipRun m s xs).1 ys).2) := by
  induction xs generalizing s with
  | nil => simp [slipRun]
  | cons b rest ih =>
    simp only [List.cons_append, slipRun, List.append_eq]
    rw [ih]
    simp [List.append_assoc]

theorem frameEvents_append (xs ys : List SlipOut) :
    frameEvents (xs ++ ys) = frameEvents xs ++ frameEvents ys := by
  induction xs with
  | nil => simp [frameEvents]
  | cons x rest ih => cases x <;> simp [frameEvents, ih]

/-- A byte that is neither the delimiter nor the escape byte, consumed in
slip-only mode with no escape pending and room left in the buffer, is
appended unchanged. -/
theorem slipStep_plain (s : SlipState) (b : Nat) (hb1 : b ≠ SLIP_END)
    (hb2 : b ≠ SLIP_ESC) (hl : s.lastc = 0)
    (hlen : s.buf.length + 1 < RXBUF_SIZE) :
    slipStep SlipMode.only s b = (⟨s.buf ++ [b], s.flags, 0⟩, []) := by
  have hpt : ¬ passThru SlipMode.only s b := by
    simp [passThru]
  have hlt : ¬ (RXBUF_SIZE ≤ s.buf.length + 1) := by omega
  simp [slipStep, hpt, hb1, hb2, escMap, hl, hlt,
    (by decide : (0 : Nat) ≠ SLIP_ESC)]

/-- A plain byte consumed in slip-only mode when the buffer is one short
of capacity triggers the overflow: the index is reset and `flags` set
to 2 in the same step. -/
theorem slipStep_overflow (s : SlipState) (b : Nat) (hb1 : b ≠ SLIP_END)
    (hb2 : b ≠ SLIP_ESC) (hl : s.lastc = 0)
    (hlen : RXBUF_SIZE ≤ s.buf.length + 1) :
    slipStep SlipMode.only s b = (⟨[], 2, 0⟩, [SlipOut.overflow]) := by
  have hpt : ¬ passThru SlipMode.only s b := by
    simp [passThru]
  simp [slipStep, hpt, hb1, hb2, escMap, hl, hlen,
    (by decide : (0 : Nat) ≠ SLIP_ESC)]

/-- Running a sequence of plain bytes (no delimiter, no escape byte) in
slip-only mode just appends them, provided the buffer never fills. -/
theorem slip_plain_run (B : List Nat) :
    ∀ (buf : List Nat) (flags : Nat),
      (∀ b ∈ B, b ≠ SLIP_END ∧ b ≠ SLIP_ESC) →
      buf.length + B.length < RXBUF_SIZE →
      slipRun SlipMode.only ⟨buf, flags, 0⟩ B = (⟨buf ++ B, flags, 0⟩, []) := by
  induction B with
  | nil => intro buf flags _ _; simp [slipRun]
  | cons b rest ih =>
    intro buf flags h3 hlen
    have hb := h3 b (List.mem_cons_self b rest)
    have hstep : slipStep SlipMode.only ⟨buf, flags, 0⟩ b
        = (⟨buf ++ [b], flags, 0⟩, []) := by
      refine slipStep_plain ⟨buf, flags, 0⟩ b hb.1 hb.2 rfl ?_
      simp only [List.length_cons] at hlen ⊢
      omega
    have hrest : slipRun SlipMode.only ⟨buf ++ [b], flags, 0⟩ rest
        = (⟨(buf ++ [b]) ++ rest, flags, 0⟩, []) := by
      refine ih (buf ++ [b]) flags (fun x hx => h3 x (List.mem_cons_of_mem b hx)) ?_
      simp only [List.length_append, List.length_cons, List.length_nil] at hlen ⊢
      omega
    simp [slipRun, hstep, hrest, List.append_assoc]

/-- Decoding the transmit-side framing of a nonempty plain payload that
fits in the buffer yields exactly that payload as one rendered frame and
returns the decoder to the fresh state. -/
theorem slip_encode_run (B : List Nat) (h1 : B ≠ []) (h2 : B.length < RXBUF_SIZE)
    (h3 : ∀ b ∈ B, b ≠ SLIP_END ∧ b ≠ SLIP_ESC) :
    slipRun SlipMode.only freshState (encode B) = (freshState, [SlipOut.frameShown B]) := by
  have h0 : slipStep SlipMode.only freshState SLIP_END = (⟨[], 1, 0⟩, []) := by decide
  have hplain : slipRun SlipMode.only ⟨[], 1, 0⟩ B = (⟨B, 1, 0⟩, []) := by
    have := slip_plain_run B [] 1 h3 (by simpa using h2)
    simpa using this
  have hclose : slipStep SlipMode.only ⟨B, 1, 0⟩ SLIP_END
      = (freshState, [SlipOut.frameShown B]) := by
    have hpt : ¬ passThru SlipMode.only (⟨B, 1, 0⟩ : SlipState) SLIP_END := by
      simp [passThru]
    have hesc : SLIP_END ≠ SLIP_ESC := by decide
    simp [slipStep, hpt, hesc, h1, closingEvent]
  show slipRun SlipMode.only freshState (SLIP_END :: (B ++ [SLIP_END]))
      = (freshState, [SlipOut.frameShown B])
  simp only [slipRun, h0]
  rw [slipRun_append, hplain]
  simp [slipRun, hclose]

/-- Feeding exactly `RXBUF_SIZE` plain bytes into an empty buffer in
slip-only mode overflows at the last byte: the overflow is reported, the
index reset, and `flags` set to 2. -/
theorem replicate_overflow (b : Nat) (hb1 : b ≠ SLIP_END) (hb2 : b ≠ SLIP_ESC)
    (flags : Nat) :
    slipRun SlipMode.only ⟨[], flags, 0⟩ (List.replicate RXBUF_SIZE b)
      = (⟨[], 2, 0⟩, [SlipOut.overflow]) := by
  have hsplit : List.replicate RXBUF_SIZE b
      = List.replicate (RXBUF_SIZE - 1) b ++ [b] := by
    rw [← List.replicate_succ' (RXBUF_SIZE - 1) b]
    norm_num [RXBUF_SIZE]
  have hplain : slipRun SlipMode.only ⟨[], flags, 0⟩ (List.replicate (RXBUF_SIZE - 1) b)
      = (⟨List.replicate (RXBUF_SIZE - 1) b, flags, 0⟩, []) := by
    have := slip_plain_run (List.replicate (RXBUF_SIZE - 1) b) [] flags
      (fun x hx => by
        rw [List.eq_of_mem_replicate hx]; exact ⟨hb1, hb2⟩)
      (by simp only [List.length_nil, List.length_replicate, RXBUF_SIZE]; omega)
    simpa using this
  have hover : slipStep SlipMode.only ⟨List.replicate (RXBUF_SIZE - 1) b, flags, 0⟩ b
      = (⟨[], 2, 0⟩, [SlipOut.overflow]) := by
    refine slipStep_overflow _ b hb1 hb2 rfl ?_
    simp only [List.length_replicate, RXBUF_SIZE]
    omega
  rw [hsplit, slipRun_append, hplain]
  simp [slipRun, hover]

/-- Every frame content emitted by a single step is nonempty. -/
theorem slipStep_frames_nonempty (m : SlipMode) (s : SlipState) (b : Nat) :
    ∀ f ∈ frameEvents (slipStep m s b).2, f ≠ [] := by
  intro f hf
  simp only [slipStep] at hf
  split at hf
  · simp [frameEvents] at hf
  · split at hf
    · simp [frameEvents] at hf
    · split at hf
      · split at hf
        · next hbuf =>
          simp only [closingEvent] at hf
          split at hf
          · simp only [frameEvents, List.mem_singleton] at hf
            subst hf; exact hbuf
          · split at hf
            · simp [frameEvents] at hf
            · simp only [frameEvents, List.mem_singleton] at hf
              subst hf; exact hbuf
        · simp [frameEvents] at hf
      · split at hf
        · simp [frameEvents] at hf
        · simp [frameEvents] at hf

/-- Every frame content emitted along any run is nonempty. -/
theorem slipRun_frames_nonempty (m : SlipMode) (input : List Nat) :
    ∀ (s : SlipState), ∀ f ∈ frameEvents (slipRun m s input).2, f ≠ [] := by
  induction input with
  | nil => intro s f hf; simp [slipRun, frameEvents] at hf
  | cons b rest ih =>
    intro s f hf
    simp only [slipRun] at hf
    rw [frameEvents_append] at hf
    rcases List.mem_append.mp hf with h | h
    · exact slipStep_frames_nonempty m s b f h
    · exact ih (slipStep m s b).1 f h

/-- One step keeps the frame-buffer length below the capacity. -/
theorem slipStep_buf_lt (m : SlipMode) (s : SlipState) (b : Nat)
    (h : s.buf.length < RXBUF_SIZE) :
    ((slipStep m s b).1).buf.length < RXBUF_SIZE := by
  simp only [slipStep]
  split
  · exact h
  · split
    · exact h
    · split
      · split
        · simp [freshState, RXBUF_SIZE]
        · exact h
      · split
        · simp [RXBUF_SIZE]
        · next hfull =>
          simp only [List.length_append, List.length_cons, List.length_nil] at hfull ⊢
          omega

/-- A whole run keeps the frame-buffer length below the capacity. -/
theorem slipRun_buf_lt (m : SlipMode) (input : List Nat) :
    ∀ (s : SlipState), s.buf.length < RXBUF_SIZE →
      ((slipRun m s input).1).buf.length < RXBUF_SIZE := by
  induction input with
  | nil => intro s h; simpa [slipRun] using h
  | cons b rest ih =>
    intro s h
    simp only [slipRun]
    exact ih (slipStep m s b).1 (slipStep_buf_lt m s b h)

/-- One `MODE_HEX` step keeps the line length below `HCOLS`. -/
theorem hexStep_lt (line : List Nat) (b : Nat) (_h : line.length < HCOLS) :
    ((hexStep line b).1).length < HCOLS := by
  simp only [hexStep]
  split
  · simp [HCOLS]
  · next hfull =>
    simp only [List.length_append, List.length_cons, List.length_nil] at hfull ⊢
    omega

/-- A whole `MODE_HEX` run keeps the line length below `HCOLS`. -/
theorem hexRun_lt (input : List Nat) :
    ∀ (line : List Nat), line.length < HCOLS →
      ((hexRun line input).1).length < HCOLS := by
  induction input with
  | nil => intro line h; simpa [hexRun] using h
  | cons b rest ih =>
    intro line h
    simp only [hexRun]
    exact ih (hexStep line b).1 (hexStep_lt line b h)

/-- The length of the hex-pair section depends only on the byte count. -/
theorem hexCellsFrom_length (bs : List Nat) :
    ∀ i, (hexCellsFrom i bs).length = hexCellsLen i bs.length := by
  induction bs with
  | nil => intro i; simp [hexCellsFrom, hexCellsLen]
  | cons b rest ih =>
    intro i
    simp only [hexCellsFrom, hexCellsLen, List.length_cons, List.length_append,
      hexByte, List.length_nil]
    rw [ih (i + 1)]
    by_cases h : i % 4 = 0 <;> simp [h]

/-! ### Claims -/

/-- C6: feeding `C0 41 42 DB DC 43 C0` to the decoder from the fresh state
produces exactly one complete, rendered frame with content `41 42 C0 43`
(the pair `DB DC` decodes to the literal delimiter value `C0`), and the
decoder returns to the fresh state. -/
theorem slip_scenario_decode :
    slipRun SlipMode.only freshState [0xC0, 0x41, 0x42, 0xDB, 0xDC, 0x43, 0xC0]
      = (freshState, [SlipOut.frameShown [0x41, 0x42, 0xC0, 0x43]]) := by decide

/-- C1 counterexample: for `B = [0xC0]`, which contains a delimiter byte,
decoding `encode B` does not yield `B` as a decoded frame: the decoder
emits no frame at all. -/
theorem encode_roundtrip_delim_cex :
    frameEvents (slipRun SlipMode.only freshState (encode [SLIP_END])).2
      ≠ [[SLIP_END]] := by decide

/-- C1 amended: the encode operation wraps the outbound bytes in one
delimiter before and one after without escaping any payload byte (the
output length is always exactly `|B| + 2`), so the round trip fails for
sequences containing delimiter or escape bytes: for `B = [0xC0]` the
decoder, fed `encode B`, emits no frame and is left with an empty buffer
mid-frame. -/
theorem encode_wraps_without_escaping :
    (∀ B : List Nat, encode B = SLIP_END :: (B ++ [SLIP_END])) ∧
    (∀ B : List Nat, (encode B).length = B.length + 2) ∧
    frameEvents (slipRun SlipMode.only freshState (encode [SLIP_END])).2 = [] ∧
    (slipRun SlipMode.only freshState (encode [SLIP_END])).1 = ⟨[], 1, 0⟩ := by
  refine ⟨fun B => rfl, fun B => by simp [encode], by decide, by decide⟩

/-- C3: a delimiter arriving on a non-empty frame buffer always closes the
frame — rendering it, suppressing it in hide mode, or discarding it when
overflowed — and resets the full decode state, for every value of `flags`;
a delimiter arriving on an empty buffer emits nothing, leaves buffer and
escape state untouched, and toggles the frame-started indicator
(`flags ≠ 0` flips); and no run from the fresh state ever emits an empty
frame, so two consecutive delimiters produce no spurious empty frame. -/
theorem delimiter_close_and_toggle :
    (∀ (m : SlipMode) (s : SlipState), s.buf ≠ [] →
        slipStep m s SLIP_END = (freshState, [closingEvent m s])) ∧
    (∀ (m : SlipMode) (s : SlipState), s.buf = [] →
        slipStep m s SLIP_END = (⟨s.buf, if s.flags = 0 then 1 else 0, s.lastc⟩, []) ∧
          (((slipStep m s SLIP_END).1).flags ≠ 0 ↔ s.flags = 0)) ∧
    (∀ (m : SlipMode) (input : List Nat) (f : List Nat),
        f ∈ frameEvents (slipRun m freshState input).2 → f ≠ []) := by
  have hne : ¬ (SLIP_END = SLIP_ESC) := by decide
  refine ⟨?_, ?_, ?_⟩
  · intro m s h
    have hpt : ¬ passThru m s SLIP_END := fun hc => hc.2.2 rfl
    simp [slipStep, hpt, hne, h]
  · intro m s h
    have hpt : ¬ passThru m s SLIP_END := fun hc => hc.2.2 rfl
    constructor
    · simp [slipStep, hpt, hne, h]
    · simp only [slipStep, hpt, if_false, hne]
      simp [h]
  · intro m input f hf
    exact slipRun_frames_nonempty m input freshState f hf

/-- C3 witness: the first part of the theorem applied to slip-only mode
and a one-byte buffer. -/
theorem delimiter_close_and_toggle_witness :
    slipStep SlipMode.only ⟨[0x41], 0, 0⟩ SLIP_END
      = (freshState, [closingEvent SlipMode.only ⟨[0x41], 0, 0⟩]) :=
  delimiter_close_and_toggle.1 SlipMode.only ⟨[0x41], 0, 0⟩ (by decide)

/-- C4 counterexample: in slip-only mode, after the fresh decoder consumes
`DB` (escape, setting escape-pending) and then `C0` (a delimiter on an
empty buffer), the escape-pending variable `lastc` is still `SLIP_ESC`:
the delimiter did not clear it, contrary to the claim. -/
theorem escape_pending_delimiter_cex :
    ((slipRun SlipMode.only freshState [SLIP_ESC, SLIP_END]).1).lastc = SLIP_ESC ∧
    SLIP_ESC ≠ 0 := by decide

/-- C4 amended: after each consumed byte the escape-pending variable is 0,
except that the escape marker sets it, a delimiter consumed while the
frame buffer is empty leaves it unchanged, and a byte passed through as
plain text in auto/hide mode leaves it unchanged. (The exception for the
empty-buffer delimiter is what the counterexample forces.) -/
theorem escape_pending_after (m : SlipMode) (s : SlipState) (b : Nat) :
    (passThru m s b → ((slipStep m s b).1).lastc = s.lastc) ∧
    (¬ passThru m s b → b = SLIP_ESC → ((slipStep m s b).1).lastc = SLIP_ESC) ∧
    (¬ passThru m s b → b ≠ SLIP_ESC → b = SLIP_END → s.buf = [] →
        ((slipStep m s b).1).lastc = s.lastc) ∧
    (¬ passThru m s b → b ≠ SLIP_ESC → (s.lastc = 0 ∨ s.lastc = SLIP_ESC) →
        ¬ (b = SLIP_END ∧ s.buf = []) → ((slipStep m s b).1).lastc = 0) := by
  refine ⟨?_, ?_, ?_, ?_⟩
  · intro hpt
    simp [slipStep, hpt]
  · intro hpt hesc
    subst hesc
    simp [slipStep, hpt]
  · intro hpt hesc hend hbuf
    subst hend
    simp [slipStep, hpt, hesc, hbuf]
  · intro hpt hesc hinv hne
    have h0 : (if s.lastc = SLIP_ESC then (0 : Nat) else s.lastc) = 0 := by
      rcases hinv with h | h
      · rw [h]; simp [(by decide : (0 : Nat) ≠ SLIP_ESC)]
      · simp [h]
    by_cases hend : b = SLIP_END
    · subst hend
      have hbuf : s.buf ≠ [] := fun hb => hne ⟨rfl, hb⟩
      simp [slipStep, hpt, hesc, hbuf, freshState]
    · simp only [slipStep, hpt, hesc, hend, if_false, ite_false]
      split <;> simpa using h0

/-- C4 witness: the escape marker itself sets the escape-pending flag. -/
theorem escape_pending_after_witness :
    ((slipStep SlipMode.only freshState SLIP_ESC).1).lastc = SLIP_ESC :=
  (escape_pending_after SlipMode.only freshState SLIP_ESC).2.1 (by decide) rfl

/-- C8 counterexample: the delimiter byte `C0` is neither of the two
escape targets, yet when it follows the escape marker it is not appended
to the frame buffer (the buffer stays empty): it is handled by the
delimiter rule instead. -/
theorem escaped_delimiter_cex :
    ((slipRun SlipMode.only freshState [SLIP_ESC, SLIP_END]).1).buf ≠ [SLIP_END] ∧
    ((slipRun SlipMode.only freshState [SLIP_ESC, SLIP_END]).1).buf = [] := by decide

/-- C8 amended: a byte following the escape marker that is none of the two
escape targets, the delimiter, and the escape marker itself is appended to
the frame buffer unchanged, with the escape-pending flag cleared, and
decoding continues normally (no failure outcome exists); a following
delimiter or escape byte is instead handled by its own rule. -/
theorem malformed_escape_tolerated (s : SlipState) (b : Nat)
    (hl : s.lastc = SLIP_ESC) (h1 : b ≠ SLIP_ESC_END) (h2 : b ≠ SLIP_ESC_ESC)
    (h3 : b ≠ SLIP_END) (h4 : b ≠ SLIP_ESC)
    (hlen : s.buf.length + 1 < RXBUF_SIZE) :
    slipStep SlipMode.only s b = (⟨s.buf ++ [b], s.flags, 0⟩, []) := by
  have hpt : ¬ passThru SlipMode.only s b := by simp [passThru]
  have hlt : ¬ (RXBUF_SIZE ≤ s.buf.length + 1) := by omega
  simp [slipStep, hpt, h1, h2, h3, h4, escMap, hl, hlt]

/-- C8 witness: byte `0x41` after an escape marker is appended unchanged. -/
theorem malformed_escape_tolerated_witness :
    slipStep SlipMode.only ⟨[], 0, SLIP_ESC⟩ 0x41 = (⟨[0x41], 0, 0⟩, []) :=
  malformed_escape_tolerated ⟨[], 0, SLIP_ESC⟩ 0x41 rfl (by decide) (by decide)
    (by decide) (by decide) (by decide)

/-- C10: in auto and hide modes a non-delimiter byte arriving with
`flags = 0` is printed directly and changes no decode state; completing a
frame always resets `flags` to 0, so pass-through resumes after every
completed frame, not only before the first delimiter; and the concrete
traces show the pass-through after a completed frame both in hide mode
(where only the frame content is suppressed) and in auto mode. -/
theorem auto_hide_passthrough_after_frames :
    (∀ (m : SlipMode) (s : SlipState) (b : Nat),
        (m = SlipMode.auto ∨ m = SlipMode.hide) → s.flags = 0 → b ≠ SLIP_END →
        slipStep m s b = (s, [SlipOut.passThrough b])) ∧
    (∀ (m : SlipMode) (s : SlipState), s.buf ≠ [] →
        ((slipStep m s SLIP_END).1).flags = 0) ∧
    slipRun SlipMode.hide freshState [SLIP_END, 0x41, SLIP_END, 0x42]
      = (freshState, [SlipOut.frameHidden [0x41], SlipOut.passThrough 0x42]) ∧
    slipRun SlipMode.auto freshState [SLIP_END, 0x41, SLIP_END, 0x42]
      = (freshState, [SlipOut.frameShown [0x41], SlipOut.passThrough 0x42]) := by
  refine ⟨?_, ?_, by decide, by decide⟩
  · intro m s b hm hf hb
    have hpt : passThru m s b := ⟨hm, hf, hb⟩
    simp [slipStep, hpt]
  · intro m s hbuf
    have hpt : ¬ passThru m s SLIP_END := fun hc => hc.2.2 rfl
    simp [slipStep, hpt, hbuf, (by decide : ¬ (SLIP_END = SLIP_ESC)), freshState]

/-- C10 witness: a plain byte passes through in hide mode with no frame
started. -/
theorem auto_hide_passthrough_witness :
    slipStep SlipMode.hide freshState 0x41 = (freshState, [SlipOut.passThrough 0x41]) :=
  auto_hide_passthrough_after_frames.1 SlipMode.hide freshState 0x41 (Or.inr rfl)
    rfl (by decide)

/-- C2 counterexample: a frame of exactly 2048 plain bytes — a length that
reaches but does not exceed the capacity — already triggers the overflow
report, and the next byte of the same frame is then buffered again
(`buf = [0x41]`), not dropped. -/
theorem overflow_rebuffers_cex :
    slipRun SlipMode.only freshState (List.replicate RXBUF_SIZE 0x42 ++ [0x41])
      = (⟨[0x41], 2, 0⟩, [SlipOut.overflow]) := by
  have h1 : slipRun SlipMode.only freshState (List.replicate RXBUF_SIZE 0x42)
      = (⟨[], 2, 0⟩, [SlipOut.overflow]) :=
    replicate_overflow 0x42 (by decide) (by decide) 0
  rw [slipRun_append, h1]
  decide

/-- C2 amended: when the accumulated decoded length reaches the capacity
2048, the decoder reports the overflow, resets the index and sets the
overflow flag in that same step; further bytes of the frame are then
accumulated into the buffer again from index 0 (not dropped); a closing
delimiter arriving on a non-empty buffer with the overflow flag set emits
`FrameDiscarded` rather than a partial frame and fully resets the decode
state, after which any valid frame decodes correctly. -/
theorem overflow_discard_reset :
    (∀ (s : SlipState) (b : Nat), b ≠ SLIP_END → b ≠ SLIP_ESC → s.lastc = 0 →
        RXBUF_SIZE ≤ s.buf.length + 1 →
        slipStep SlipMode.only s b = (⟨[], 2, 0⟩, [SlipOut.overflow])) ∧
    (∀ b : Nat, b ≠ SLIP_END → b ≠ SLIP_ESC →
        slipStep SlipMode.only ⟨[], 2, 0⟩ b = (⟨[b], 2, 0⟩, [])) ∧
    (∀ s : SlipState, s.buf ≠ [] → s.flags = 2 →
        slipStep SlipMode.only s SLIP_END = (freshState, [SlipOut.frameDiscarded])) ∧
    (∀ B : List Nat, B ≠ [] → B.length < RXBUF_SIZE →
        (∀ b ∈ B, b ≠ SLIP_END ∧ b ≠ SLIP_ESC) →
        frameEvents (slipRun SlipMode.only freshState (encode B)).2 = [B]) := by
  refine ⟨?_, ?_, ?_, ?_⟩
  · intro s b hb1 hb2 hl hlen
    exact slipStep_overflow s b hb1 hb2 hl hlen
  · intro b hb1 hb2
    have h := slipStep_plain ⟨[], 2, 0⟩ b hb1 hb2 rfl (by decide)
    simpa using h
  · intro s hbuf hfl
    have hpt : ¬ passThru SlipMode.only s SLIP_END := by simp [passThru]
    simp [slipStep, hpt, hbuf, hfl, closingEvent,
      (by decide : ¬ (SLIP_END = SLIP_ESC))]
  · intro B h1 h2 h3
    rw [slip_encode_run B h1 h2 h3]
    simp [frameEvents]

/-- C2 witness: after an overflow the next plain byte is buffered again. -/
theorem overflow_discard_reset_witness :
    slipStep SlipMode.only ⟨[], 2, 0⟩ 0x41 = (⟨[0x41], 2, 0⟩, []) :=
  overflow_discard_reset.2.1 0x41 (by decide) (by decide)

/-- C5 counterexample: the round trip fails for plain payloads at the
buffer capacity and for the empty payload: decoding
`encode (replicate 2048 0x41)` emits no frame (only the overflow report),
and decoding `encode []` emits no frame either. -/
theorem plain_roundtrip_cex :
    frameEvents (slipRun SlipMode.only freshState
        (encode (List.replicate RXBUF_SIZE 0x41))).2 = [] ∧
    frameEvents (slipRun SlipMode.only freshState
        (encode (List.replicate RXBUF_SIZE 0x41))).2
      ≠ [List.replicate RXBUF_SIZE 0x41] ∧
    frameEvents (slipRun SlipMode.only freshState (encode ([] : List Nat))).2 = [] := by
  have key : slipRun SlipMode.only freshState (encode (List.replicate RXBUF_SIZE 0x41))
      = (freshState, [SlipOut.overflow]) := by
    have e1 : encode (List.replicate RXBUF_SIZE 0x41)
        = [SLIP_END] ++ (List.replicate RXBUF_SIZE 0x41 ++ [SLIP_END]) := rfl
    have h0 : slipRun SlipMode.only freshState [SLIP_END] = (⟨[], 1, 0⟩, []) := by decide
    have h1 : slipRun SlipMode.only (⟨[], 1, 0⟩ : SlipState)
        (List.replicate RXBUF_SIZE 0x41) = (⟨[], 2, 0⟩, [SlipOut.overflow]) :=
      replicate_overflow 0x41 (by decide) (by decide) 1
    rw [e1, slipRun_append, h0]
    dsimp only
    rw [slipRun_append, h1]
    dsimp only
    decide
  refine ⟨by rw [key]; decide, by rw [key]; decide, by decide⟩

/-- C5 amended: for every nonempty byte sequence `B` of length below the
buffer capacity 2048 containing neither the delimiter nor the escape
byte, decoding `encode B` from the fresh state yields exactly one frame
with content `B` and returns the decoder to the fresh state. (The
counterexample forces excluding the empty sequence and lengths of 2048
or more.) -/
theorem plain_roundtrip (B : List Nat) (h1 : B ≠ []) (h2 : B.length < RXBUF_SIZE)
    (h3 : ∀ b ∈ B, b ≠ SLIP_END ∧ b ≠ SLIP_ESC) :
    slipRun SlipMode.only freshState (encode B) = (freshState, [SlipOut.frameShown B]) ∧
    frameEvents (slipRun SlipMode.only freshState (encode B)).2 = [B] := by
  have h := slip_encode_run B h1 h2 h3
  exact ⟨h, by rw [h]; simp [frameEvents]⟩

/-- C5 witness: the round trip at `B = [0x41]`. -/
theorem plain_roundtrip_witness :
    slipRun SlipMode.only freshState (encode [0x41])
        = (freshState, [SlipOut.frameShown [0x41]]) ∧
    frameEvents (slipRun SlipMode.only freshState (encode [0x41])).2 = [[0x41]] :=
  plain_roundtrip [0x41] (by decide) (by decide) (by decide)

/-- C7 counterexample: the hex rendering of the 3 bytes `41 42 43` does
not contain the claimed pair grouping `4142 43`: the first four byte
positions form a single group, so the three bytes render contiguously
as ` 414243`. -/
theorem hex_line_grouping_cex :
    ¬ List.IsInfix ("4142 43".toList) (print_hex_line [] [0x41, 0x42, 0x43]) := by
  decide

/-- C7 amended: in hex mode with line width 20, the 3 bytes
`41 42 43` at frame end render as a carriage return, the contiguous hex
pairs ` 414243` (one group of up to four bytes, no inner space), two
separator blanks, space padding to the full column width, then the ASCII
rendering `ABC`; and the column count before the ASCII section is the
constant `prefix length + 48` for every fill level up to 20 bytes. -/
theorem hex_line_padding_and_width :
    print_hex_line [] [0x41, 0x42, 0x43]
        = ("\r 414243                                        ABC").toList ∧
    hexFlush ((hexRun [] [0x41, 0x42, 0x43]).1)
        = ("\r 414243                                        ABC").toList ∧
    (∀ (pfx : List Char) (bs : List Nat), bs.length ≤ HCOLS →
        ('\r' :: pfx ++ hexCellsFrom 0 bs ++ [' ', ' ']
            ++ padCells bs.length (HCOLS - bs.length)).length = pfx.length + 48) := by
  refine ⟨by decide, by decide, ?_⟩
  intro pfx bs hlen
  have h45 : ∀ k, k < 21 → hexCellsLen 0 k + (padCells k (HCOLS - k)).length = 45 := by
    decide
  have hk : bs.length < 21 := by
    have : HCOLS = 20 := by decide
    omega
  have := h45 bs.length hk
  simp only [List.length_cons, List.length_append, List.length_nil, hexCellsFrom_length]
  omega

/-- C7 witness: a single-byte line has the same pre-ASCII width 48. -/
theorem hex_line_width_witness :
    ('\r' :: ([] : List Char) ++ hexCellsFrom 0 [0x41] ++ [' ', ' ']
        ++ padCells (List.length [0x41]) (HCOLS - List.length [0x41])).length
      = ([] : List Char).length + 48 :=
  hex_line_padding_and_width.2.2 [] [0x41] (by decide)

/-- C9: the frame-buffer length (the write index) stays strictly below
the 2048-byte capacity across every step and every run from the fresh
state, so each buffer write lands at an index below 2048 and the index is
reset in the same step in which it would reach the capacity; likewise the
`MODE_HEX` line index stays strictly below `HCOLS = 20`. -/
theorem buffer_index_safety :
    (∀ (m : SlipMode) (s : SlipState) (b : Nat), s.buf.length < RXBUF_SIZE →
        ((slipStep m s b).1).buf.length < RXBUF_SIZE) ∧
    (∀ (m : SlipMode) (input : List Nat),
        ((slipRun m freshState input).1).buf.length < RXBUF_SIZE) ∧
    (∀ (s : SlipState) (b : Nat), b ≠ SLIP_END → b ≠ SLIP_ESC → s.lastc = 0 →
        RXBUF_SIZE ≤ s.buf.length + 1 → ((slipStep SlipMode.only s b).1).buf = []) ∧
    (∀ (line : List Nat) (b : Nat), line.length < HCOLS →
        ((hexStep line b).1).length < HCOLS) ∧
    (∀ (input : List Nat), ((hexRun [] input).1).length < HCOLS) := by
  refine ⟨slipStep_buf_lt, ?_, ?_, hexStep_lt, ?_⟩
  · intro m input
    exact slipRun_buf_lt m input freshState (by decide)
  · intro s b hb1 hb2 hl hlen
    rw [slipStep_overflow s b hb1 hb2 hl hlen]
  · intro input
    exact hexRun_lt input [] (by decide)

/-- C9 witness: one step from the fresh state keeps the index in range. -/
theorem buffer_index_safety_witness :
    ((slipStep SlipMode.only freshState 0x41).1).buf.length < RXBUF_SIZE :=
  buffer_index_safety.1 SlipMode.only freshState 0x41 (by decide)

end Serialdump
